/-
Verification of the frost-mcp-server repository against its specification.

The development shallowly embeds the relevant JavaScript sources:
  * the warehouse inventory dashboard (Next.js frontend under
    CreationEngineSource/inventory-dashboard and the unnamed Dashboard /
    StockAlert components), and
  * the Electron "OVERLORD" launcher (electron-app/renderer.js, which holds
    both the renderer script and the main-process script).

JavaScript numbers are modelled by exact rationals (ℚ), JS strings by Lean
strings, `process.env` by an association list, and the Electron main process
by an explicit state machine over its two child-process handles.
-/
import Mathlib

namespace Frost

/-! ## Inventory data model (claim C1)

The FastAPI backend of the inventory dashboard is not part of the repository
snapshot; only its frontend callers and README are.  The low-stock predicate
and the `/low-stock` endpoint are therefore modelled from the spec. -/

/-- A product row of the warehouse inventory (Products table): an item with
an `initial_capacity` and a `current_stock`.  Numeric columns are modelled
as rationals. -/
structure Product where
  id : Nat
  current_stock : ℚ
  initial_capacity : ℚ
  deriving DecidableEq, Repr

/-- Modelled from the spec: the backend low-stock predicate is missing from
`src/`; per the spec and the dashboard README, a product is low-stock when
`current_stock < 0.1 × initial_capacity`. -/
def is_low_stock (p : Product) : Prop :=
  p.current_stock < (1 / 10 : ℚ) * p.initial_capacity

instance (p : Product) : Decidable (is_low_stock p) := by
  unfold is_low_stock; infer_instance

/-- Modelled from the spec: the `/low-stock` endpoint is missing from `src/`;
per the spec it returns exactly the products of the database state that
satisfy `is_low_stock`, and `[]` when all items are healthy. -/
def lowStockEndpoint (db : List Product) : List Product :=
  db.filter (fun p => decide (is_low_stock p))

/-! ## Electron launcher: IPC events (claims C2, C3, C4, C8)

`electron-app/renderer.js` contains both the renderer and the main process.
The main process replies to the renderer with `log-update` and
`build-complete` IPC events. -/

/-- An IPC event sent from the Electron main process to the renderer.
`build-complete` carries a `success` flag and an `aborted` flag (a JS object
field that is absent reads as `undefined`, which is falsy, so it is
modelled as `false`). -/
inductive IpcEvent where
  | logUpdate (text : String)
  | buildComplete (success : Bool) (aborted : Bool)
  deriving DecidableEq, Repr

/-- The `pythonProcess.on('close')` handler of the main process: for exit
code `0` it replies one `build-complete` with `success: true`; for any other
exit code it replies one `build-complete` with `success: false` (and the
code, which the renderer does not inspect).  Neither reply carries an
`aborted` field. -/
def pythonOnClose (code : Int) : List IpcEvent :=
  if code = 0 then [.buildComplete true false]
  else [.buildComplete false false]

/-- The status badge the renderer displays. -/
inductive BuildStatus where
  | aborted
  | complete
  | failed
  deriving DecidableEq, Repr

/-- The renderer's `ipcRenderer.on('build-complete')` handler: `ABORTED` when
`result.aborted` is truthy, else `COMPLETE` when `result.success` is truthy,
else `FAILED`. -/
def rendererOnBuildComplete (success aborted : Bool) : BuildStatus :=
  if aborted then .aborted
  else if success then .complete
  else .failed

/-- Is an IPC event a `build-complete` event? -/
def IpcEvent.isBuildComplete : IpcEvent → Bool
  | .buildComplete _ _ => true
  | .logUpdate _ => false

/-! ## Theorems for C1 and C2 -/

/-- C1: a product is low-stock exactly when its current stock is below one
tenth of its initial capacity, and the `/low-stock` endpoint returns exactly
the set of products of the database satisfying the predicate, `[]` when none
qualify. -/
theorem C1_low_stock_endpoint :
    (∀ p : Product, is_low_stock p ↔ p.current_stock < (1 / 10 : ℚ) * p.initial_capacity) ∧
    (∀ db : List Product, ∀ p : Product,
      p ∈ lowStockEndpoint db ↔ p ∈ db ∧ is_low_stock p) ∧
    (∀ db : List Product, (∀ p ∈ db, ¬ is_low_stock p) → lowStockEndpoint db = []) := by
  refine ⟨fun p => Iff.rfl, fun db p => ?_, fun db h => ?_⟩
  · simp [lowStockEndpoint, List.mem_filter]
  · simp only [lowStockEndpoint, List.filter_eq_nil_iff]
    intro p hp
    simpa using h p hp

/-- C2: for every exit code the close handler emits exactly one
`build-complete` event, its `success` field is `true` iff the code is `0`,
and every non-zero exit code is rendered as `FAILED` by the renderer; the
handler emits nothing else (no retry). -/
theorem C2_exit_code_failure (code : Int) :
    (pythonOnClose code).length = 1 ∧
    (∀ s a, IpcEvent.buildComplete s a ∈ pythonOnClose code → (s = true ↔ code = 0)) ∧
    (code ≠ 0 →
      pythonOnClose code = [.buildComplete false false] ∧
      rendererOnBuildComplete false false = .failed) := by
  by_cases h : code = 0 <;>
    simp [pythonOnClose, rendererOnBuildComplete, h]

theorem low_stock_5_of_100 : is_low_stock ⟨1, 5, 100⟩ := by
  unfold is_low_stock
  norm_num

theorem healthy_50_of_100 : ¬ is_low_stock ⟨2, 50, 100⟩ := by
  unfold is_low_stock
  norm_num

/-- Witness for C1 at a two-product database: the 5-of-100 product is
low-stock and returned, and a healthy-only database yields `[]`. -/
theorem C1_low_stock_endpoint_witness :
    (Product.mk 1 5 100) ∈ lowStockEndpoint [⟨1, 5, 100⟩, ⟨2, 50, 100⟩] ∧
    lowStockEndpoint [(⟨2, 50, 100⟩ : Product)] = [] :=
  ⟨(C1_low_stock_endpoint.2.1 [⟨1, 5, 100⟩, ⟨2, 50, 100⟩] ⟨1, 5, 100⟩).mpr
      ⟨by simp, low_stock_5_of_100⟩,
   C1_low_stock_endpoint.2.2 [⟨2, 50, 100⟩]
     (fun p hp => by
       rcases List.mem_singleton.mp hp with rfl
       exact healthy_50_of_100)⟩

/-- Witness for C2 at exit code 7. -/
theorem C2_exit_code_failure_witness :
    (pythonOnClose 7).length = 1 ∧
    pythonOnClose 7 = [.buildComplete false false] ∧
    rendererOnBuildComplete false false = .failed :=
  ⟨(C2_exit_code_failure 7).1,
   ((C2_exit_code_failure 7).2.2 (by decide)).1,
   ((C2_exit_code_failure 7).2.2 (by decide)).2⟩

/-! ## Electron main-process state machine (claims C3 and C8)

The main process keeps two module-level child-process handles,
`pythonProcess` and `maintProcess`.  The state machine below models the
handlers that touch `pythonProcess`, treating `kill()` as terminating the
child.  Spawned children are identified by a fresh counter; `live` is the
set of spawned build children that have not yet been killed or exited. -/

/-- State of the Electron main process restricted to the build child. -/
structure MainState where
  pythonProcess : Option Nat
  live : List Nat
  counter : Nat
  deriving DecidableEq, Repr

/-- The state at application startup: `let pythonProcess = null`. -/
def initMain : MainState := ⟨none, [], 0⟩

/-- Model of `killPython()`: if a handle is held, kill that child and set the handle
to `null`; otherwise do nothing. -/
def killPython (s : MainState) : MainState :=
  match s.pythonProcess with
  | none => s
  | some p => ⟨none, s.live.erase p, s.counter⟩

/-- Spawning the python child inside the `start-build` handler: a fresh
child becomes live and `pythonProcess` is set to its handle. -/
def spawnPython (s : MainState) : MainState :=
  ⟨some s.counter, s.counter :: s.live, s.counter + 1⟩

/-- The `ipcMain.on('start-build')` handler, state part: `killPython()` first,
then `pythonProcess = spawn('python', args, ...)`. -/
def startBuild (s : MainState) : MainState :=
  spawnPython (killPython s)

/-- The `pythonProcess.on('close')` handler, state part: the tracked child
has exited and `pythonProcess = null`. -/
def pythonClosed (s : MainState) : MainState :=
  match s.pythonProcess with
  | none => s
  | some p => ⟨none, s.live.erase p, s.counter⟩

/-- The `ipcMain.on('cancel-build')` handler: `if (pythonProcess) { killPython();
event.reply('log-update', ...); event.reply('build-complete', {success:false,
aborted:true}); }` — returns the new state and the replies it emits. -/
def cancelBuild (s : MainState) : MainState × List IpcEvent :=
  match s.pythonProcess with
  | none => (s, [])
  | some _ =>
      (killPython s,
       [.logUpdate "[ERROR] Build aborted by operator.",
        .buildComplete false true])

/-- The events the modelled handlers respond to. -/
inductive MainAction where
  | startBuildReq
  | cancelBuildReq
  | pythonExit
  | windowClosed
  deriving DecidableEq, Repr

/-- One step of the main process.  `window closed` and `window-all-closed`
both call `killPython()`. -/
def mainStep (s : MainState) : MainAction → MainState
  | .startBuildReq => startBuild s
  | .cancelBuildReq => (cancelBuild s).1
  | .pythonExit => pythonClosed s
  | .windowClosed => killPython s

/-- Run a sequence of actions from the initial state. -/
def mainRun (acts : List MainAction) : MainState :=
  acts.foldl mainStep initMain

/-- The single-handle invariant: either no build child is live, or exactly
one is and `pythonProcess` refers to it. -/
def SingleChild (s : MainState) : Prop :=
  s.live = [] ∨ ∃ p, s.live = [p] ∧ s.pythonProcess = some p

theorem singleChild_init : SingleChild initMain := Or.inl rfl

theorem singleChild_killPython {s : MainState} (h : SingleChild s) :
    SingleChild (killPython s) ∧ (killPython s).live = [] := by
  rcases h with h | ⟨p, hl, hp⟩
  · cases hps : s.pythonProcess <;>
      simp_all [killPython, SingleChild]
  · simp [killPython, hp, hl, List.erase_cons, SingleChild]

theorem singleChild_step {s : MainState} (h : SingleChild s) (a : MainAction) :
    SingleChild (mainStep s a) := by
  cases a
  · rcases (singleChild_killPython h).2 with hk
    exact Or.inr ⟨(killPython s).counter, by simp [mainStep, startBuild, spawnPython, hk]⟩
  · rcases hps : s.pythonProcess with _ | p
    · simpa [mainStep, cancelBuild, hps] using h
    · simpa [mainStep, cancelBuild, hps] using (singleChild_killPython h).1
  · rcases h with h | ⟨p, hl, hp⟩
    · cases hps : s.pythonProcess <;> simp_all [mainStep, pythonClosed, SingleChild]
    · simp [mainStep, pythonClosed, hp, hl, List.erase_cons, SingleChild]
  · exact (singleChild_killPython h).1

/-- C3: every `start-build` request first runs `killPython` (which leaves the
handle `null` and no live build child) before spawning, and in every state
reachable from startup at most one build child is live, with `pythonProcess`
referring to it. -/
theorem C3_single_child_handle :
    (∀ s : MainState, startBuild s = spawnPython (killPython s) ∧
      (killPython s).pythonProcess = none ∧
      (SingleChild s → (killPython s).live = [])) ∧
    (∀ acts : List MainAction,
      (mainRun acts).live.length ≤ 1 ∧
      (∀ p ∈ (mainRun acts).live, (mainRun acts).pythonProcess = some p)) := by
  constructor
  · intro s
    refine ⟨rfl, ?_, fun h => (singleChild_killPython h).2⟩
    cases hps : s.pythonProcess <;> simp [killPython, hps]
  · intro acts
    have h : SingleChild (mainRun acts) := by
      unfold mainRun
      induction acts using List.reverseRecOn with
      | nil => exact singleChild_init
      | append_singleton as a ih =>
          rw [List.foldl_append]
          exact singleChild_step ih a
    rcases h with h | ⟨p, hl, hp⟩ <;> simp_all

/-- Witness for C3: the kill-before-spawn part at a concrete state holding a
live child, and the invariant after a concrete action sequence. -/
theorem C3_single_child_handle_witness :
    startBuild ⟨some 0, [0], 1⟩ = spawnPython (killPython ⟨some 0, [0], 1⟩) ∧
    (killPython (⟨some 0, [0], 1⟩ : MainState)).pythonProcess = none ∧
    (killPython (⟨some 0, [0], 1⟩ : MainState)).live = [] ∧
    (mainRun [.startBuildReq, .cancelBuildReq, .startBuildReq]).live.length ≤ 1 ∧
    (mainRun [.startBuildReq, .cancelBuildReq, .startBuildReq]).pythonProcess = some 1 :=
  ⟨(C3_single_child_handle.1 ⟨some 0, [0], 1⟩).1,
   (C3_single_child_handle.1 ⟨some 0, [0], 1⟩).2.1,
   (C3_single_child_handle.1 ⟨some 0, [0], 1⟩).2.2 (Or.inr ⟨0, rfl, rfl⟩),
   (C3_single_child_handle.2 [.startBuildReq, .cancelBuildReq, .startBuildReq]).1,
   (C3_single_child_handle.2 [.startBuildReq, .cancelBuildReq, .startBuildReq]).2
     1 (by decide)⟩

/-- C8: with no running child the cancel handler emits nothing and changes
no state; with a running child it kills it (handle becomes `null`, the child
leaves the live set) and emits exactly one `build-complete`, with
`aborted = true`. -/
theorem C8_cancel_build (s : MainState) :
    (s.pythonProcess = none → cancelBuild s = (s, [])) ∧
    (∀ p, s.pythonProcess = some p →
      (cancelBuild s).1.pythonProcess = none ∧
      (cancelBuild s).1.live = s.live.erase p ∧
      ((cancelBuild s).2.filter IpcEvent.isBuildComplete) =
        [.buildComplete false true]) := by
  constructor
  · intro h; simp [cancelBuild, h]
  · intro p hp
    simp [cancelBuild, hp, killPython, IpcEvent.isBuildComplete]

/-- Witness for C8 at the empty state and at a state with a running child. -/
theorem C8_cancel_build_witness :
    cancelBuild initMain = (initMain, []) ∧
    (cancelBuild ⟨some 4, [4], 5⟩).1.pythonProcess = none ∧
    (cancelBuild ⟨some 4, [4], 5⟩).1.live = ([4] : List Nat).erase 4 ∧
    ((cancelBuild (⟨some 4, [4], 5⟩ : MainState)).2.filter
        IpcEvent.isBuildComplete) = [.buildComplete false true] :=
  ⟨(C8_cancel_build initMain).1 rfl,
   ((C8_cancel_build ⟨some 4, [4], 5⟩).2 4 rfl).1,
   ((C8_cancel_build ⟨some 4, [4], 5⟩).2 4 rfl).2.1,
   ((C8_cancel_build ⟨some 4, [4], 5⟩).2 4 rfl).2.2⟩

/-! ## Chunk forwarding and the renderer's line classifier (claim C4) -/

/-- JS `String.prototype.trim` on a character list: strip leading and
trailing whitespace. -/
def jsTrimList (cs : List Char) : List Char :=
  ((cs.dropWhile Char.isWhitespace).reverse.dropWhile Char.isWhitespace).reverse

/-- JS `String.prototype.trim`. -/
def jsTrim (s : String) : String :=
  String.mk (jsTrimList s.toList)

/-- The `pythonProcess.stdout.on('data')` handler:
`data.toString().split('\n').filter(l => l.trim())`, then one
`log-update` reply per remaining line. -/
def forwardStdout (chunk : String) : List IpcEvent :=
  ((chunk.splitOn "\n").filter (fun l => jsTrim l ≠ "")).map .logUpdate

/-- The `pythonProcess.stderr.on('data')` handler: as `forwardStdout`, with
each line replied as `[ERROR] ${line}`. -/
def forwardStderr (chunk : String) : List IpcEvent :=
  ((chunk.splitOn "\n").filter (fun l => jsTrim l ≠ "")).map
    (fun l => .logUpdate ("[ERROR] " ++ l))

/-- The `AGENT_PERSONAS` table of the renderer, in object-literal insertion
order, as (tag, CSS class) pairs. -/
def AGENT_PERSONAS : List (String × String) :=
  [("ARCHITECT", "persona-architect"),
   ("ENGINEER", "persona-engineer"),
   ("REVIEWER", "persona-reviewer"),
   ("DEBUGGER", "persona-reviewer"),
   ("DOCKER", "persona-system"),
   ("SUCCESS", "persona-success"),
   ("ERROR", "persona-error"),
   ("SYSTEM", "persona-system"),
   ("COMPLETE", "persona-success"),
   ("WISDOM", "persona-architect")]

/-- Does `hay` start with `needle`? (helper for the substring check). -/
def leadsWith : List Char → List Char → Bool
  | [], _ => true
  | _ :: _, [] => false
  | a :: as, b :: bs => a = b && leadsWith as bs

/-- JS `String.prototype.includes` on character lists: `needle` occurs as a
contiguous run inside `hay`. -/
def occursIn (needle hay : List Char) : Bool :=
  match hay with
  | [] => needle.isEmpty
  | _ :: rest => leadsWith needle hay || occursIn needle rest

/-- JS `String.prototype.toUpperCase` (ASCII range, which covers every
persona tag). -/
def jsToUpper (s : String) : String :=
  String.mk (s.toList.map Char.toUpper)

/-- Test `upper.includes('[KEY]')` for the uppercased line: the bracketed tag is
a contiguous substring. -/
def containsTag (line key : String) : Prop :=
  occursIn ("[" ++ key ++ "]").toList (jsToUpper line).toList = true

instance (line key : String) : Decidable (containsTag line key) := by
  unfold containsTag; infer_instance

/-- The renderer's `classifyLine`, persona-assignment part: uppercase the
line, return the first persona of `AGENT_PERSONAS` whose bracketed tag the
uppercased line includes, defaulting to `SYSTEM`.  Result is the
(tag, class) pair. -/
def classifyLine (text : String) : String × String :=
  match AGENT_PERSONAS.find? (fun kp =>
      occursIn ("[" ++ kp.1 ++ "]").toList (jsToUpper text).toList) with
  | some kp => kp
  | none => ("SYSTEM", "persona-system")

theorem leadsWith_iff (n h : List Char) : leadsWith n h = true ↔ n <+: h := by
  induction n generalizing h with
  | nil => simp [leadsWith]
  | cons a as ih =>
      cases h with
      | nil => simp [leadsWith]
      | cons b bs =>
          simp [leadsWith, List.cons_prefix_cons, ih, and_comm]

theorem occursIn_iff (n h : List Char) : occursIn n h = true ↔ n <:+: h := by
  induction h with
  | nil => simp [occursIn, List.isEmpty_iff]
  | cons b bs ih =>
      rw [List.infix_cons_iff]
      simp only [occursIn, Bool.or_eq_true, ih, leadsWith_iff]

/-! ### Helper lemmas for C4 -/

theorem jsTrimList_eq_nil_iff (cs : List Char) :
    jsTrimList cs = [] ↔ ∀ c ∈ cs, c.isWhitespace := by
  unfold jsTrimList
  rw [List.reverse_eq_nil_iff, List.dropWhile_eq_nil_iff]
  constructor
  · intro h c hc
    have hsplit := List.takeWhile_append_dropWhile (p := Char.isWhitespace) (l := cs)
    rw [← hsplit] at hc
    rcases List.mem_append.mp hc with htk | hdr
    · exact List.mem_takeWhile_imp htk
    · exact h c (List.mem_reverse.mpr hdr)
  · intro h c hc
    exact h c ((List.dropWhile_sublist _).subset (List.mem_reverse.mp hc))

theorem jsTrim_eq_empty_iff (s : String) :
    jsTrim s = "" ↔ s.toList.all Char.isWhitespace = true := by
  unfold jsTrim
  rw [show ("" : String) = String.mk [] from rfl]
  constructor
  · intro h
    rw [List.all_eq_true]
    exact (jsTrimList_eq_nil_iff s.toList).mp (by injection h)
  · intro h
    exact congrArg String.mk
      ((jsTrimList_eq_nil_iff s.toList).mpr (List.all_eq_true.mp h))

theorem keep_line_eq (l : String) :
    (decide (jsTrim l ≠ "")) = !(l.toList.all Char.isWhitespace) := by
  by_cases h : jsTrim l = ""
  · rw [(jsTrim_eq_empty_iff l).mp h]
    simp [h]
  · have hb : l.toList.all Char.isWhitespace = false := by
      rcases hx : l.toList.all Char.isWhitespace with _ | _
      · rfl
      · exact absurd ((jsTrim_eq_empty_iff l).mpr hx) h
    rw [hb]
    simp [h]

theorem keys_determine :
    ∀ a ∈ AGENT_PERSONAS, ∀ b ∈ AGENT_PERSONAS, a.1 = b.1 → a = b := by
  decide

theorem find_first_true {α : Type} (l : List α) (p : α → Bool) (x : α)
    (hx : x ∈ l) (hpx : p x = true)
    (huniq : ∀ y ∈ l, p y = true → y = x) :
    l.find? p = some x := by
  induction l with
  | nil => cases hx
  | cons a t ih =>
      rcases hpa : p a with _ | _
      · have hxt : x ∈ t := by
          rcases List.mem_cons.mp hx with rfl | hxt
          · rw [hpx] at hpa; cases hpa
          · exact hxt
        rw [List.find?_cons_of_neg _ (by simp [hpa])]
        exact ih hxt (fun y hy hpy => huniq y (List.mem_cons_of_mem _ hy) hpy)
      · rw [List.find?_cons_of_pos _ hpa]
        rw [huniq a (List.mem_cons_self a t) hpa]

/-- C4: each stdout and stderr chunk is split at newlines, whitespace-only
lines are dropped, each remaining line becomes one `log-update` event
(stderr lines with an `[ERROR] ` prefix); the classifier sends every line
whose uppercase form includes no known bracketed tag to `SYSTEM`, and every
line including exactly one known tag to that persona. -/
theorem C4_line_stream_classifier :
    (∀ chunk : String,
      forwardStdout chunk =
        ((chunk.splitOn "\n").filter
          (fun l => !(l.toList.all Char.isWhitespace))).map IpcEvent.logUpdate ∧
      forwardStderr chunk =
        ((chunk.splitOn "\n").filter
          (fun l => !(l.toList.all Char.isWhitespace))).map
            (fun l => IpcEvent.logUpdate ("[ERROR] " ++ l))) ∧
    (∀ line : String,
      (∀ kp ∈ AGENT_PERSONAS, ¬ containsTag line kp.1) →
        classifyLine line = ("SYSTEM", "persona-system")) ∧
    (∀ line key cls, (key, cls) ∈ AGENT_PERSONAS → containsTag line key →
      (∀ kp ∈ AGENT_PERSONAS, kp.1 ≠ key → ¬ containsTag line kp.1) →
      classifyLine line = (key, cls)) := by
  have hfeq : (fun l => decide (jsTrim l ≠ "")) =
      (fun l : String => !(l.toList.all Char.isWhitespace)) :=
    funext keep_line_eq
  refine ⟨fun chunk => ?_, fun line hnone => ?_, fun line key cls hmem htag huniq => ?_⟩
  · constructor
    · unfold forwardStdout; rw [hfeq]
    · unfold forwardStderr; rw [hfeq]
  · unfold classifyLine
    rw [List.find?_eq_none.mpr
      (fun kp hkp => by simpa [containsTag] using hnone kp hkp)]
  · unfold classifyLine
    rw [find_first_true AGENT_PERSONAS _ (key, cls) hmem
      (by simpa [containsTag] using htag)
      (fun y hy hpy => keys_determine y hy (key, cls) hmem (by
        by_contra hne
        exact huniq y hy hne (by simpa [containsTag] using hpy)))]

/-- Witness for C4 on concrete lines: a tagged engineer line, an untagged
line, and a blank-bearing stderr chunk. -/
theorem C4_line_stream_classifier_witness :
    (forwardStderr "boom\n   \ntrace" =
        ((("boom\n   \ntrace" : String).splitOn "\n").filter
          (fun l => !(l.toList.all Char.isWhitespace))).map
            (fun l => IpcEvent.logUpdate ("[ERROR] " ++ l))) ∧
    classifyLine "plain progress line" = ("SYSTEM", "persona-system") ∧
    classifyLine "[engineer] writing main.py" = ("ENGINEER", "persona-engineer") := by
  refine ⟨(C4_line_stream_classifier.1 "boom\n   \ntrace").2,
    C4_line_stream_classifier.2.1 "plain progress line" (by decide),
    C4_line_stream_classifier.2.2 "[engineer] writing main.py" "ENGINEER" "persona-engineer"
      (by decide) (by decide) (by decide)⟩

/-! ## Dashboard fetch error handling (claim C5) -/

/-- Outcome of a JS `fetch` as observed by its caller: the promise rejects
(network error) or a response with an HTTP status and a body arrives. -/
inductive FetchOutcome (β : Type) where
  | netError (msg : String)
  | response (status : Nat) (body : β)
  deriving DecidableEq, Repr

/-- Model of `Response.ok`: the HTTP status lies in the 200–299 range. -/
def responseOk (status : Nat) : Bool :=
  200 ≤ status && status ≤ 299

/-- Model of `fetchAPI` of `lib/api.js`: on a non-ok response it throws
`API error: ...`; the `catch` block logs the error and rethrows it
(`throw error`), so the caller receives the exception. -/
def fetchAPI {β : Type} (r : FetchOutcome β) : Except String β :=
  match r with
  | .netError m => .error m
  | .response st body =>
      if responseOk st then .ok body
      else .error ("API error: " ++ toString st)

/-- A parsed JSON body as the StockAlert validation sees it: an array of
items, or anything else. -/
inductive JsonValue (α : Type) where
  | arr (items : List α)
  | notArr
  deriving DecidableEq, Repr

/-- Model of `fetchLowStock` of the StockAlert component: a rejected fetch or a
non-ok status is caught and yields `setAlerts([])`; an ok response with a
non-array body also yields `[]`; an ok array body is kept. -/
def fetchLowStock {α : Type} (r : FetchOutcome (JsonValue α)) : List α :=
  match r with
  | .netError _ => []
  | .response st body =>
      if responseOk st then
        match body with
        | .arr items => items
        | .notArr => []
      else []

/-- JS `Number.prototype.toFixed(2)` modelled over ℚ: round to cents and print
with two decimals. -/
def toFixed2 (q : ℚ) : String :=
  let cents : Int := round (q * 100)
  let a := cents.natAbs
  (if cents < 0 then "-" else "") ++ toString (a / 100) ++ "." ++
    (if a % 100 < 10 then "0" else "") ++ toString (a % 100)

/-- The unit-price cell of `ProductTable`:
`$${product.unit_price?.toFixed(2) ?? '0.00'}`. -/
def renderUnitPrice (price : Option ℚ) : String :=
  "$" ++ (match price with
          | some v => toFixed2 v
          | none => "0.00")

/-- Did the `/low-stock` request fail, or deliver a non-array body? -/
def lowStockBad {α : Type} : FetchOutcome (JsonValue α) → Prop
  | .netError _ => True
  | .response st body => responseOk st = false ∨ body = JsonValue.notArr

/-- C5 counterexample: `fetchAPI` does not replace a failed fetch by a
default value — it rethrows, handing the error to its caller. -/
theorem C5_fetchAPI_rethrows :
    fetchAPI (FetchOutcome.netError "ECONNREFUSED"
        : FetchOutcome (JsonValue Product)) =
      Except.error "ECONNREFUSED" := rfl

/-- C5 (amended): the StockAlert fetch replaces every failed or non-array
`/low-stock` response by the empty alert list, and a missing `unit_price`
renders as `$0.00`; `fetchAPI` of `lib/api.js`, however, propagates every
fetch error to its caller after logging it. -/
theorem C5_default_fallbacks :
    (∀ (α : Type) (r : FetchOutcome (JsonValue α)),
      lowStockBad r → fetchLowStock r = []) ∧
    renderUnitPrice none = "$0.00" ∧
    (∀ m : String,
      fetchAPI (FetchOutcome.netError m : FetchOutcome (JsonValue Product)) =
        Except.error m) := by
  refine ⟨fun α r hbad => ?_, rfl, fun m => rfl⟩
  match r with
  | .netError m => rfl
  | .response st body =>
      rcases hbad with hst | hb
      · simp [fetchLowStock, hst]
      · subst hb
        simp [fetchLowStock]

/-- Witness for C5 at a 500 response carrying a (spurious) non-empty
array. -/
theorem C5_default_fallbacks_witness :
    fetchLowStock (FetchOutcome.response 500
        (JsonValue.arr [Product.mk 1 0 0])) = [] :=
  C5_default_fallbacks.1 Product
    (FetchOutcome.response 500 (JsonValue.arr [Product.mk 1 0 0]))
    (Or.inl rfl)

/-! ## Dashboard polling timers (claim C6)

Both the Dashboard page and the StockAlert panel run
`setInterval(fetchX, 30000)` inside a `useEffect` whose cleanup is
`() => clearInterval(interval)`.  Both effects' dependencies are referentially
constant in this app (`useCallback` with `[]`, resp. a constant `apiUrl`
prop), so each effect runs once per mount and its cleanup once per
unmount. -/

/-- The literal passed to `setInterval` in the Dashboard page. -/
def dashboardPollMs : Nat := 30000

/-- The literal passed to `setInterval` in the StockAlert component. -/
def stockAlertPollMs : Nat := 30000

inductive LifeEvent where
  | mount
  | unmount
  deriving DecidableEq, Repr

inductive TimerOp where
  | set (id period : Nat)
  | clear (id : Nat)
  deriving DecidableEq, Repr

/-- Replay the component lifecycle for one of these effects: mounting runs
the effect body, which registers an interval timer of the component's
period; unmounting runs the returned cleanup, which clears that timer.
Arguments: the period, the pending lifecycle events, a fresh timer id, the
currently registered timer. -/
def runEffect (period : Nat) :
    List LifeEvent → Nat → Option Nat → List TimerOp
  | [], _, _ => []
  | .mount :: rest, fresh, none =>
      .set fresh period :: runEffect period rest (fresh + 1) (some fresh)
  | .mount :: rest, fresh, some t => runEffect period rest fresh (some t)
  | .unmount :: rest, fresh, some t =>
      .clear t :: runEffect period rest fresh none
  | .unmount :: rest, fresh, none => runEffect period rest fresh none

/-- Exactly `n` mount/unmount cycles of the component. -/
def lifecycle : Nat → List LifeEvent
  | 0 => []
  | n + 1 => .mount :: .unmount :: lifecycle n

/-- The expected timer trace: each cycle registers one timer with the given
period and clears exactly that timer at teardown. -/
def timerPairs (period : Nat) (k : Nat) : Nat → List TimerOp
  | 0 => []
  | n + 1 => .set k period :: .clear k :: timerPairs period (k + 1) n

theorem runEffect_set_period (period : Nat) (evs : List LifeEvent) :
    ∀ (fresh : Nat) (st : Option Nat) (i q : Nat),
      TimerOp.set i q ∈ runEffect period evs fresh st → q = period := by
  induction evs with
  | nil => intro fresh st i q h; cases h
  | cons e rest ih =>
      intro fresh st i q h
      cases e with
      | mount =>
          cases st with
          | none =>
              simp only [runEffect] at h
              rcases List.mem_cons.mp h with heq | h2
              · injection heq
              · exact ih _ _ _ _ h2
          | some t =>
              simp only [runEffect] at h
              exact ih _ _ _ _ h
      | unmount =>
          cases st with
          | none =>
              simp only [runEffect] at h
              exact ih _ _ _ _ h
          | some t =>
              simp only [runEffect] at h
              rcases List.mem_cons.mp h with heq | h2
              · exact TimerOp.noConfusion heq
              · exact ih _ _ _ _ h2

theorem runEffect_lifecycle (period n : Nat) :
    ∀ k, runEffect period (lifecycle n) k none = timerPairs period k n := by
  induction n with
  | zero => intro k; rfl
  | succ m ih =>
      intro k
      simp only [lifecycle, runEffect, timerPairs]
      rw [ih (k + 1)]

/-- The ids of the `clearInterval` calls of a timer trace, in order. -/
def clears : List TimerOp → List Nat
  | [] => []
  | .clear i :: rest => i :: clears rest
  | .set _ _ :: rest => clears rest

theorem clears_timerPairs (period : Nat) (n : Nat) :
    ∀ k, clears (timerPairs period k n) = List.range' k n := by
  induction n with
  | zero => intro k; rfl
  | succ m ih =>
      intro k
      simp only [timerPairs, clears, List.range']
      rw [ih (k + 1)]

/-- C6: both poll timers tick every 30000 ms; over any number of
mount/unmount cycles each effect registers one 30000 ms timer per mount and
clears exactly that timer at teardown (never twice, never elsewhere), and
every timer either component ever registers has period 30000. -/
theorem C6_thirty_second_polling :
    dashboardPollMs = 30000 ∧ stockAlertPollMs = 30000 ∧
    (∀ (evs : List LifeEvent) (fresh : Nat) (st : Option Nat) (i q : Nat),
      TimerOp.set i q ∈ runEffect dashboardPollMs evs fresh st ∨
      TimerOp.set i q ∈ runEffect stockAlertPollMs evs fresh st → q = 30000) ∧
    (∀ n k, runEffect dashboardPollMs (lifecycle n) k none =
        timerPairs 30000 k n ∧
      runEffect stockAlertPollMs (lifecycle n) k none =
        timerPairs 30000 k n) ∧
    (∀ n k, clears (timerPairs 30000 k n) = List.range' k n ∧
      (clears (timerPairs 30000 k n)).Nodup) := by
  refine ⟨rfl, rfl, ?_, ?_, fun n k => ?_⟩
  · rintro evs fresh st i q (h | h) <;>
      exact runEffect_set_period _ evs fresh st i q h
  · intro n k
    exact ⟨runEffect_lifecycle dashboardPollMs n k,
      runEffect_lifecycle stockAlertPollMs n k⟩
  · rw [clears_timerPairs 30000 n k]
    exact ⟨rfl, List.nodup_range' k n⟩

/-- Witness for C6 over two mount/unmount cycles. -/
theorem C6_thirty_second_polling_witness :
    (30000 : Nat) = 30000 ∧
    runEffect dashboardPollMs (lifecycle 2) 0 none = timerPairs 30000 0 2 ∧
    clears (timerPairs 30000 0 2) = List.range' 0 2 ∧
    (clears (timerPairs 30000 0 2)).Nodup :=
  ⟨C6_thirty_second_polling.2.2.1 [.mount] 5 none 5 30000 (Or.inl (by decide)),
   (C6_thirty_second_polling.2.2.2.1 2 0).1,
   (C6_thirty_second_polling.2.2.2.2 2 0).1,
   (C6_thirty_second_polling.2.2.2.2 2 0).2⟩

/-! ## ProductTable client-side sort (claim C7) -/

/-- A JS value as it appears in a sortable column of a product row. -/
inductive JsVal where
  | str (s : String)
  | num (q : ℚ)
  | undef
  deriving DecidableEq, Repr

/-- A row of the product table (the sortable fields). -/
structure Row where
  id : Nat
  name : JsVal
  sku : JsVal
  stock_percentage : JsVal
  unit_price : JsVal
  deriving DecidableEq, Repr

/-- The sortable columns (`handleSort` is only wired to these). -/
inductive SortField where
  | name
  | stock_percentage
  | unit_price
  deriving DecidableEq, Repr

def getField (r : Row) : SortField → JsVal
  | .name => r.name
  | .stock_percentage => r.stock_percentage
  | .unit_price => r.unit_price

/-- Model of `if (typeof aVal === 'string') aVal = aVal.toLowerCase()`. -/
def jsLowerVal : JsVal → JsVal
  | .str s => .str (String.mk (s.toList.map Char.toLower))
  | v => v

/-- The JS `<` relation restricted to the shapes the table compares:
number/number and string/string; every comparison involving `undefined`
(or mixed types, which coerce through NaN here) is `false`. -/
def jsLtVal : JsVal → JsVal → Bool
  | .num a, .num b => a < b
  | .str a, .str b => a < b
  | _, _ => false

/-- The sort comparator of `ProductTable`:
`aVal < bVal → (asc ? -1 : 1)`, `aVal > bVal → (asc ? 1 : -1)`, else `0`. -/
def comparator (field : SortField) (asc : Bool) (a b : Row) : Int :=
  let av := jsLowerVal (getField a field)
  let bv := jsLowerVal (getField b field)
  if jsLtVal av bv then (if asc then -1 else 1)
  else if jsLtVal bv av then (if asc then 1 else -1)
  else 0

/-- The `sorted` memo of `ProductTable`: `[]` for a non-array `products`
(modelled by `none`), otherwise the spread copy `[...products]` sorted with
the comparator (a comparison sort returning a permutation, as ECMA-262
guarantees for `Array.prototype.sort`). -/
def sortedRows (products : Option (List Row)) (field : SortField)
    (asc : Bool) : List Row :=
  match products with
  | none => []
  | some ps => ps.mergeSort (fun a b => decide (comparator field asc a b ≤ 0))

/-- The whole memo step seen with the input array: `[...products]` copies,
so the sort acts on the copy and the `products` array is returned
untouched. -/
def sortedView (ps : List Row) (field : SortField) (asc : Bool) :
    List Row × List Row :=
  (ps, sortedRows (some ps) field asc)

/-- C7: the client-side sort of the product table returns `[]` on a
non-array input, returns a permutation of the products array (nothing
added, dropped or duplicated), and leaves the products array itself
unchanged (the sort runs on the spread copy). -/
theorem C7_sort_is_permutation :
    (∀ field asc, sortedRows none field asc = []) ∧
    (∀ ps field asc, (sortedRows (some ps) field asc).Perm ps) ∧
    (∀ ps field asc, (sortedView ps field asc).1 = ps ∧
      (sortedView ps field asc).2 = sortedRows (some ps) field asc) := by
  refine ⟨fun field asc => rfl, fun ps field asc => ?_, fun ps field asc => ⟨rfl, rfl⟩⟩
  exact List.mergeSort_perm ps _

/-! ## The `.env` loader of the Electron main process (claim C9) -/

/-- Model of `process.env`, as an association list (first binding wins on read,
assignment replaces in place). -/
def Env := List (String × String)

/-- Read `process.env[k]`. -/
def envGet (e : Env) (k : String) : Option String :=
  match e with
  | [] => none
  | kv :: rest => if kv.1 = k then some kv.2 else envGet rest k

/-- Assign `process.env[k] = v`. -/
def envSet (e : Env) (k v : String) : Env :=
  match e with
  | [] => [(k, v)]
  | kv :: rest => if kv.1 = k then (k, v) :: rest else kv :: envSet rest k v

/-- JS truthiness of `process.env[key]`: defined and non-empty. -/
def envTruthy (e : Env) (k : String) : Bool :=
  match envGet e k with
  | some v => decide (v ≠ "")
  | none => false

/-- JS `content.split('\n')` on a character list. -/
def splitOnChar (c : Char) : List Char → List (List Char)
  | [] => [[]]
  | a :: rest =>
      let r := splitOnChar c rest
      if a = c then [] :: r
      else
        match r with
        | [] => [[a]]
        | h :: t => (a :: h) :: t

/-- The key/value a `.env` line defines, if any: trim the line, skip empty
lines and `#` comments, require `indexOf('=') > 0`, and trim the key
(`substring(0, eqIdx)`) and value (`substring(eqIdx + 1)`). -/
def lineKV (line : String) : Option (String × String) :=
  let trimmed := jsTrimList line.toList
  if trimmed = [] then none
  else if trimmed.head? = some '#' then none
  else if '=' ∉ trimmed then none
  else
    let pre := trimmed.takeWhile (fun c => c ≠ '=')
    if pre = [] then none
    else some (String.mk (jsTrimList pre),
      String.mk (jsTrimList ((trimmed.dropWhile (fun c => c ≠ '=')).drop 1)))

/-- Process one `.env` line: `if (!process.env[key]) process.env[key] = val`. -/
def loadEnvLine (e : Env) (line : String) : Env :=
  match lineKV line with
  | none => e
  | some (k, v) => if envTruthy e k then e else envSet e k v

/-- The `.env` loader: a missing file or a read failure (the `try`/`catch`)
leaves the environment unchanged; otherwise every line of the file is
processed in order. -/
def loadDotenv (e : Env) (file : Option String) : Env :=
  match file with
  | none => e
  | some content =>
      ((splitOnChar '\n' content.toList).map String.mk).foldl loadEnvLine e

/-- C9 counterexample: a variable that is defined but empty
(`FROST_KEY = ""`) is overwritten by the loader, because the guard is JS
truthiness (`!process.env[key]`), not definedness. -/
theorem C9_empty_var_overwritten :
    envGet [("FROST_KEY", "")] "FROST_KEY" = some "" ∧
    envGet (loadDotenv [("FROST_KEY", "")] (some "FROST_KEY=secret"))
        "FROST_KEY" = some "secret" := by
  constructor
  · rfl
  · rfl

theorem envGet_envSet_ne (e : Env) (k k2 v : String) (h : k2 ≠ k) :
    envGet (envSet e k2 v) k = envGet e k := by
  induction e with
  | nil => simp [envSet, envGet, h]
  | cons kv rest ih =>
      by_cases hk : kv.1 = k2
      · simp [envSet, envGet, hk, h]
      · simp only [envSet, envGet, if_neg hk]
        by_cases hk2 : kv.1 = k
        · simp [envGet, hk2]
        · simp [envGet, hk2, ih]

theorem loadEnvLine_none (e : Env) (line : String)
    (h : lineKV line = none) : loadEnvLine e line = e := by
  unfold loadEnvLine; rw [h]

theorem loadEnvLine_some (e : Env) (line k v : String)
    (h : lineKV line = some (k, v)) :
    loadEnvLine e line = if envTruthy e k then e else envSet e k v := by
  unfold loadEnvLine; rw [h]

theorem loadEnvLine_keeps (e : Env) (line k v : String)
    (hv : envGet e k = some v) (hne : v ≠ "") :
    envGet (loadEnvLine e line) k = some v := by
  rcases hkv : lineKV line with _ | ⟨k2, v2⟩
  · rw [loadEnvLine_none e line hkv]; exact hv
  · rw [loadEnvLine_some e line k2 v2 hkv]
    by_cases hk : k2 = k
    · subst hk
      have ht : envTruthy e k2 = true := by
        unfold envTruthy
        rw [hv]
        simpa using hne
      rw [if_pos ht]; exact hv
    · by_cases ht : envTruthy e k2
      · rw [if_pos ht]; exact hv
      · rw [if_neg ht, envGet_envSet_ne e k k2 v2 hk]; exact hv

theorem foldl_loadEnvLine_keeps (lines : List String) :
    ∀ (e : Env) (k v : String), envGet e k = some v → v ≠ "" →
      envGet (lines.foldl loadEnvLine e) k = some v := by
  induction lines with
  | nil => intro e k v hv _; exact hv
  | cons l rest ih =>
      intro e k v hv hne
      exact ih (loadEnvLine e l) k v (loadEnvLine_keeps e l k v hv hne) hne

theorem loadEnvLine_new (e : Env) (line k : String)
    (h0 : envGet e k = none) (h1 : envGet (loadEnvLine e line) k ≠ none) :
    ∃ v, lineKV line = some (k, v) := by
  rcases hkv : lineKV line with _ | ⟨k2, v2⟩
  · rw [loadEnvLine_none e line hkv] at h1; exact absurd h0 h1
  · rw [loadEnvLine_some e line k2 v2 hkv] at h1
    by_cases ht : envTruthy e k2
    · rw [if_pos ht] at h1; exact absurd h0 h1
    · rw [if_neg ht] at h1
      by_cases hk : k2 = k
      · exact ⟨v2, by rw [hk]⟩
      · rw [envGet_envSet_ne e k k2 v2 hk] at h1
        exact absurd h0 h1

theorem foldl_loadEnvLine_new (lines : List String) :
    ∀ (e : Env) (k : String), envGet e k = none →
      envGet (lines.foldl loadEnvLine e) k ≠ none →
      ∃ line ∈ lines, ∃ v, lineKV line = some (k, v) := by
  induction lines with
  | nil => intro e k h0 h1; exact absurd h0 h1
  | cons l rest ih =>
      intro e k h0 h1
      by_cases hmid : envGet (loadEnvLine e l) k = none
      · obtain ⟨line, hline, hv⟩ := ih (loadEnvLine e l) k hmid h1
        exact ⟨line, List.mem_cons_of_mem _ hline, hv⟩
      · exact ⟨l, List.mem_cons_self l rest, loadEnvLine_new e l k h0 hmid⟩

/-- The lines of the loaded file. -/
def fileLines : Option String → List String
  | none => []
  | some content => (splitOnChar '\n' content.toList).map String.mk

/-- C9 (amended): the loader never overwrites an environment variable whose
current value is non-empty (a variable defined as the empty string may be
overwritten); a key can only become newly defined through a line that
parses to a key/value pair — a trimmed, non-empty, non-`#` line with `=` at
a positive index; and a missing or unreadable `.env` leaves the environment
unchanged. -/
theorem C9_env_loader (e : Env) (file : Option String) (k v : String) :
    (envGet e k = some v → v ≠ "" →
      envGet (loadDotenv e file) k = some v) ∧
    (envGet e k = none → envGet (loadDotenv e file) k ≠ none →
      ∃ line ∈ fileLines file, ∃ w, lineKV line = some (k, w)) ∧
    loadDotenv e none = e ∧
    (∀ (line kk vv : String), lineKV line = some (kk, vv) →
      jsTrimList line.toList ≠ [] ∧
      (jsTrimList line.toList).head? ≠ some '#' ∧
      '=' ∈ jsTrimList line.toList ∧
      (jsTrimList line.toList).takeWhile (fun c => c ≠ '=') ≠ []) := by
  refine ⟨fun hv hne => ?_, fun h0 h1 => ?_, rfl, fun line kk vv hkv => ?_⟩
  · match file with
    | none => exact hv
    | some content => exact foldl_loadEnvLine_keeps _ e k v hv hne
  · match file with
    | none => exact absurd h0 h1
    | some content => exact foldl_loadEnvLine_new _ e k h0 h1
  · unfold lineKV at hkv
    by_cases h1 : jsTrimList line.toList = [] <;>
      by_cases h2 : (jsTrimList line.toList).head? = some '#' <;>
        by_cases h3 : '=' ∈ jsTrimList line.toList <;>
          by_cases h4 : (jsTrimList line.toList).takeWhile (fun c => c ≠ '=') = [] <;>
            simp_all

/-- Witness for C9: a populated `PATH` survives a shadowing `.env` line, a
fresh key traces back to a defining line, the no-file case, and the guard
facts of a parsed line. -/
theorem C9_env_loader_witness :
    envGet (loadDotenv [("PATH", "/usr/bin")]
        (some "PATH=/evil\n# note\nNEW=1")) "PATH" = some "/usr/bin" ∧
    (∃ line ∈ fileLines (some "NEW=1"),
      ∃ w, lineKV line = some ("NEW", w)) ∧
    loadDotenv [("PATH", "/usr/bin")] none = [("PATH", "/usr/bin")] ∧
    (jsTrimList ("A=b" : String).toList ≠ [] ∧
      (jsTrimList ("A=b" : String).toList).head? ≠ some '#' ∧
      '=' ∈ jsTrimList ("A=b" : String).toList ∧
      (jsTrimList ("A=b" : String).toList).takeWhile (fun c => c ≠ '=') ≠ []) :=
  ⟨(C9_env_loader [("PATH", "/usr/bin")] (some "PATH=/evil\n# note\nNEW=1")
      "PATH" "/usr/bin").1 rfl (by decide),
   (C9_env_loader [] (some "NEW=1") "NEW" "").2.1 rfl (by decide),
   (C9_env_loader [("PATH", "/usr/bin")] none "PATH" "/usr/bin").2.2.1,
   (C9_env_loader [] none "A" "").2.2.2 "A=b" "A" "b" (by decide)⟩

/-! ## Dashboard success rate (claim C10) -/

/-- JS `Math.round`: round half toward positive infinity. -/
def jsRound (q : ℚ) : Int := ⌊q + 1 / 2⌋

/-- The fields of `project_manifest.json` the success-rate computation
reads. -/
structure Manifest where
  status : Option String
  success : Bool
  deriving DecidableEq, Repr

/-- One project folder of the output directory; `manifest = none` models a
missing or unparsable `project_manifest.json` (the `catch` skips it). -/
structure ProjectDir where
  manifest : Option Manifest
  deriving DecidableEq, Repr

/-- Model of `if (manifest.status === 'COMPLETE' || manifest.success)
successfulBuilds++`. -/
def isSuccessful : Option Manifest → Bool
  | some m => decide (m.status = some "COMPLETE") || m.success
  | none => false

/-- Value of `successfulBuilds` after the loop. -/
def countSuccessful (ps : List ProjectDir) : Nat :=
  ps.countP (fun p => isSuccessful p.manifest)

/-- The `dashSuccessRate` text:
`projects.length > 0 ? Math.round((successfulBuilds / projects.length) * 100) + '%' : '0%'`. -/
def successRateText (ps : List ProjectDir) : String :=
  if ps.length > 0 then
    toString (jsRound ((countSuccessful ps : ℚ) / (ps.length : ℚ) * 100)) ++ "%"
  else "0%"

/-- C10: the success-rate display never divides by zero — zero project
folders yield the literal `'0%'`, and for a non-empty project list the
divisor is non-zero and the display is `round(100·s/n)` followed by `%`. -/
theorem C10_success_rate (ps : List ProjectDir) :
    (ps = [] → successRateText ps = "0%") ∧
    (ps ≠ [] →
      ((ps.length : ℚ) ≠ 0 ∧
        successRateText ps =
          toString (jsRound
            (100 * (countSuccessful ps : ℚ) / (ps.length : ℚ))) ++ "%")) := by
  constructor
  · intro h; subst h; rfl
  · intro h
    have hlen : 0 < ps.length := List.length_pos.mpr h
    have hq : ((ps.length : ℚ)) ≠ 0 := by
      simpa using Nat.pos_iff_ne_zero.mp hlen
    refine ⟨hq, ?_⟩
    unfold successRateText
    rw [if_pos hlen]
    have harith : (countSuccessful ps : ℚ) / (ps.length : ℚ) * 100 =
        100 * (countSuccessful ps : ℚ) / (ps.length : ℚ) := by
      field_simp
      ring
    rw [harith]

/-- Witness for C10 at the empty directory and at two projects with one
successful build. -/
theorem C10_success_rate_witness :
    successRateText [] = "0%" ∧
    successRateText
        [⟨some ⟨some "COMPLETE", false⟩⟩, ⟨none⟩] =
      toString (jsRound
        (100 * (countSuccessful [⟨some ⟨some "COMPLETE", false⟩⟩, ⟨none⟩] : ℚ) /
          ((List.length [(⟨some ⟨some "COMPLETE", false⟩⟩ : ProjectDir), ⟨none⟩] : Nat) : ℚ))) ++ "%" :=
  ⟨(C10_success_rate []).1 rfl,
   ((C10_success_rate [⟨some ⟨some "COMPLETE", false⟩⟩, ⟨none⟩]).2
      (by simp)).2⟩

end Frost
